import Mathlib

/-!
Shallow embedding of `src/post-tweet.js` from the synapse-x-lab repository.

The script reads a YAML agenda file (`agenda.yaml`), looks up the job whose
`date` equals today's `YYYY-MM-DD` key, publishes its `thread` via an
external Publisher client, and on success re-reads the agenda, filters out
every job whose `(date, concept)` pair matches the published job, and writes
the result back.

Modelling decisions:
* A `Job` mirrors one YAML job record.  Its `thread` field is
  `Option (List String)`: `none` models a YAML value that is not a sequence
  (missing field, scalar, mapping, ...), so `Array.isArray` is `thread.isSome`.
* `AgendaData` mirrors the parsed top-level mapping: an optional `jobs`
  sequence plus the list of other top-level keys (`others`), which the
  rewrite in `removeJobFromAgenda` drops.
* `Storage` models the on-disk state: file absent (`missing`), present but
  not parseable (`malformed`, where `yaml.load` throws), or parsed content
  (`content none` models an empty file, for which `yaml.load` yields a falsy
  value).
* Throwing JS code is modelled with `Except Unit`; `process.exit(1)` and
  normal termination are modelled by the `exitCode` field of `RunOutcome`.
* The two external effects that can fail are inputs to the model:
  `publishOk` (does `rwClient.v2.tweetThread` succeed?) and `writeOk`
  (does `fs.writeFileSync` succeed?).
-/

namespace PostTweet

/-- One scheduled job from the agenda file: `date`, `concept`, `thread`.
`thread = none` models a YAML value that is not a sequence. -/
structure Job where
  date : String
  concept : String
  thread : Option (List String)
deriving DecidableEq, Repr

/-- The parsed top-level YAML mapping: the optional `jobs` sequence and the
names of any other top-level keys present in the file. -/
structure AgendaData where
  jobs : Option (List Job)
  others : List String
deriving DecidableEq, Repr

/-- The state of the agenda file on disk. -/
inductive Storage where
  | missing
  | malformed
  | content (data : Option AgendaData)
deriving DecidableEq, Repr

/-- Embedding of `getJobParaHoy` (src/post-tweet.js lines 19-38).
Returns `Except.error ()` exactly where the JS function would throw
(only `yaml.load` on malformed content); in the missing / empty /
no-`jobs` / no-match cases it returns `Except.ok none` (the JS `null`
or `undefined`). -/
def getJobParaHoy (hoy : String) (s : Storage) : Except Unit (Option Job) :=
  match s with
  | .missing => .ok none
  | .malformed => .error ()
  | .content none => .ok none
  | .content (some data) =>
    match data.jobs with
    | none => .ok none
    | some js =>
      if js.length == 0 then .ok none
      else .ok (js.find? (fun job => job.date == hoy))

/-- Embedding of `removeJobFromAgenda` (src/post-tweet.js lines 41-59).
Re-reads the file (throws if it is missing or malformed, or if the parsed
data is falsy or has no `jobs` sequence, since `data.jobs.filter` would
throw), filters out every job matching the published job's
`(date, concept)` pair, and writes back `{ jobs: jobsPendientes }`,
dropping any other top-level keys.  `writeOk = false` models a failing
`fs.writeFileSync`. -/
def removeJobFromAgenda (jobPublicado : Job) (s : Storage) (writeOk : Bool) :
    Except Unit Storage :=
  match s with
  | .missing => .error ()
  | .malformed => .error ()
  | .content none => .error ()
  | .content (some data) =>
    match data.jobs with
    | none => .error ()
    | some js =>
      let jobsPendientes := js.filter (fun job =>
        !(job.date == jobPublicado.date && job.concept == jobPublicado.concept))
      if writeOk then .ok (.content (some ⟨some jobsPendientes, []⟩))
      else .error ()

/-- Observable outcome of one run of the script: the process exit status,
the final state of the agenda file, and the thread the Publisher was
invoked with (`none` when `tweetThread` was never called). -/
structure RunOutcome where
  exitCode : Nat
  finalStorage : Storage
  publisherCalledWith : Option (List String)
deriving DecidableEq, Repr

/-- Embedding of `publicarHilo` (src/post-tweet.js lines 62-97).
Any error thrown inside the `try` block — including one thrown by
`removeJobFromAgenda` after a successful publish — reaches the single
`catch`, which calls `process.exit(1)`.  Otherwise the process terminates
normally with status 0. -/
def publicarHilo (hoy : String) (s : Storage) (publishOk : Bool) (writeOk : Bool) :
    RunOutcome :=
  match getJobParaHoy hoy s with
  | .error _ => ⟨1, s, none⟩
  | .ok none => ⟨0, s, none⟩
  | .ok (some jobHoy) =>
    match jobHoy.thread with
    | none => ⟨1, s, none⟩
    | some [] => ⟨1, s, none⟩
    | some (t :: ts) =>
      if publishOk then
        match removeJobFromAgenda jobHoy s writeOk with
        | .ok s2 => ⟨0, s2, some (t :: ts)⟩
        | .error _ => ⟨1, s, some (t :: ts)⟩
      else ⟨1, s, some (t :: ts)⟩

/-- Concrete jobs used in counterexamples and witnesses. -/
def jobA : Job := ⟨"2024-01-01", "A", some ["x"]⟩

def jobB : Job := ⟨"2024-01-02", "B", some ["y", "z"]⟩

def jobA2 : Job := ⟨"2024-01-01", "A", some ["y"]⟩

def jobC : Job := ⟨"2024-01-01", "B", some ["y"]⟩

/-! ## Theorems -/

/-- Claim C3: whenever the agenda file does not exist, is empty, contains no
`jobs` sequence, or contains no job dated `hoy`, `getJobParaHoy` returns the
absent value (`Except.ok none`) rather than raising.  The function reads the
storage and returns a value; it performs no write, so it never mutates the
file (mutation appears nowhere in its embedding). -/
theorem C3_getJobParaHoy_absent (hoy : String) (s : Storage)
    (h : s = .missing ∨ s = .content none ∨
      (∃ e, s = .content (some ⟨none, e⟩)) ∨
      (∃ e, s = .content (some ⟨some [], e⟩)) ∨
      (∃ js e, s = .content (some ⟨some js, e⟩) ∧ ∀ j ∈ js, j.date ≠ hoy)) :
    getJobParaHoy hoy s = .ok none := by
  rcases h with h | h | ⟨e, h⟩ | ⟨e, h⟩ | ⟨js, e, h, hnone⟩ <;> subst h
  · rfl
  · rfl
  · rfl
  · rfl
  · have hfind : js.find? (fun job => job.date == hoy) = none := by
      rw [List.find?_eq_none]
      intro j hj
      simpa using hnone j hj
    simp [getJobParaHoy, hfind]

/-- Witness for C3 at a concrete input: the missing-file case. -/
theorem C3_witness :
    getJobParaHoy "2024-01-01" Storage.missing = Except.ok none :=
  C3_getJobParaHoy_absent "2024-01-01" Storage.missing (Or.inl rfl)

/-- Claim C8: when today's lookup finds nothing, the run exits with status 0,
the Publisher is never invoked, and the agenda file is untouched. -/
theorem C8_no_job_exits_zero (hoy : String) (s : Storage)
    (publishOk writeOk : Bool)
    (hnone : getJobParaHoy hoy s = .ok none) :
    publicarHilo hoy s publishOk writeOk = ⟨0, s, none⟩ := by
  unfold publicarHilo
  rw [hnone]

/-- Witness for C8: run against a missing agenda file. -/
theorem C8_witness :
    publicarHilo "2024-01-01" Storage.missing true true =
      ⟨0, Storage.missing, none⟩ :=
  C8_no_job_exits_zero "2024-01-01" Storage.missing true true rfl

/-- Claim C6: a job found for today whose `thread` is not a sequence
(`none`) or is empty fails validation before the Publisher is invoked:
exit status 1, Publisher never called, agenda file unchanged. -/
theorem C6_invalid_thread_fails_before_publish (hoy : String) (s : Storage)
    (jobHoy : Job) (publishOk writeOk : Bool)
    (hfind : getJobParaHoy hoy s = .ok (some jobHoy))
    (hthread : jobHoy.thread = none ∨ jobHoy.thread = some []) :
    publicarHilo hoy s publishOk writeOk = ⟨1, s, none⟩ := by
  rcases hthread with h | h <;> simp [publicarHilo, hfind, h]

/-- Witness for C6: the spec scenario of a job for today with `thread: []`. -/
theorem C6_witness :
    publicarHilo "2024-01-01"
      (Storage.content (some ⟨some [⟨"2024-01-01", "A", some []⟩], []⟩)) true true =
      ⟨1, Storage.content (some ⟨some [⟨"2024-01-01", "A", some []⟩], []⟩), none⟩ :=
  C6_invalid_thread_fails_before_publish "2024-01-01"
    (Storage.content (some ⟨some [⟨"2024-01-01", "A", some []⟩], []⟩))
    ⟨"2024-01-01", "A", some []⟩ true true rfl (Or.inr rfl)

/-- Claim C5: when the Publisher call fails, the run exits with status 1 and
the final storage is the pre-run storage (no read-modify-write of the
agenda file happens on this path); the Publisher was invoked with the
job's thread. -/
theorem C5_publish_failure_leaves_agenda (hoy : String) (s : Storage)
    (jobHoy : Job) (t : String) (ts : List String) (writeOk : Bool)
    (hfind : getJobParaHoy hoy s = .ok (some jobHoy))
    (hthread : jobHoy.thread = some (t :: ts)) :
    publicarHilo hoy s false writeOk = ⟨1, s, some (t :: ts)⟩ := by
  simp [publicarHilo, hfind, hthread]

/-- Witness for C5: publish fails on a one-job agenda. -/
theorem C5_witness :
    publicarHilo "2024-01-01" (Storage.content (some ⟨some [jobA], []⟩)) false true =
      ⟨1, Storage.content (some ⟨some [jobA], []⟩), some ["x"]⟩ :=
  C5_publish_failure_leaves_agenda "2024-01-01"
    (Storage.content (some ⟨some [jobA], []⟩)) jobA "x" [] true rfl rfl

/-- Helper: a job returned by `getJobParaHoy` is a member of the stored
`jobs` sequence and is dated `hoy`. -/
theorem found_job_mem (hoy : String) (js : List Job) (e : List String) (jobHoy : Job)
    (hfind : getJobParaHoy hoy (.content (some ⟨some js, e⟩)) = .ok (some jobHoy)) :
    jobHoy ∈ js ∧ jobHoy.date = hoy := by
  have hfind2 : js.find? (fun job => job.date == hoy) = some jobHoy := by
    rcases js with _ | ⟨a, rest⟩
    · rw [show getJobParaHoy hoy (.content (some ⟨some ([] : List Job), e⟩)) =
          .ok none from rfl] at hfind
      exact absurd (Except.ok.inj hfind) (by simp)
    · rw [show getJobParaHoy hoy (.content (some ⟨some (a :: rest), e⟩)) =
          .ok ((a :: rest).find? (fun job => job.date == hoy)) from rfl] at hfind
      exact Except.ok.inj hfind
  exact ⟨List.mem_of_find?_eq_some hfind2, by simpa using List.find?_some hfind2⟩

/-- Helper: the fully successful run (job found, valid thread, publish and
write-back both succeed) publishes the thread and rewrites the agenda as
the filtered jobs sequence under a `jobs`-only mapping. -/
theorem run_success_eq (hoy : String) (js : List Job) (e : List String) (jobHoy : Job)
    (t : String) (ts : List String)
    (hfind : getJobParaHoy hoy (.content (some ⟨some js, e⟩)) = .ok (some jobHoy))
    (hthread : jobHoy.thread = some (t :: ts)) :
    publicarHilo hoy (.content (some ⟨some js, e⟩)) true true =
      ⟨0, .content (some ⟨some (js.filter (fun job =>
          !(job.date == jobHoy.date && job.concept == jobHoy.concept))), []⟩),
        some (t :: ts)⟩ := by
  simp [publicarHilo, hfind, hthread, removeJobFromAgenda]

/-- Helper: the removal predicate in Bool form agrees with the
`(date, concept)` pair in Prop form. -/
theorem removal_pred_iff (a b : Job) :
    ((!(a.date == b.date && a.concept == b.concept)) = true) ↔
      ¬(a.date = b.date ∧ a.concept = b.concept) := by
  simp
  tauto

/-- Claim C1 counterexample: on a one-job agenda, with the Publisher call
succeeding (`publishOk = true`, so the thread `["x"]` is published) and the
cleanup write-back failing (`writeOk = false`), the process exits with
status 1, not 0: a cleanup failure after a confirmed publish does change
the exit status, because `removeJobFromAgenda` is called inside the `try`
and its error reaches the same `catch` that calls `process.exit(1)`. -/
theorem C1_counterexample :
    publicarHilo "2024-01-01" (Storage.content (some ⟨some [jobA], []⟩)) true false =
      ⟨1, Storage.content (some ⟨some [jobA], []⟩), some ["x"]⟩ ∧ (1 : Nat) ≠ 0 :=
  ⟨rfl, one_ne_zero⟩

/-- Claim C1 (amended): when the publish step succeeds but the agenda
cleanup raises, the error is caught by the top-level handler and the
process exits with status 1 (non-zero); the publish itself is not
reverted (the Publisher was already invoked with the thread) and the
agenda file keeps its pre-run content. -/
theorem C1_cleanup_failure_exits_nonzero (hoy : String) (s : Storage) (jobHoy : Job)
    (t : String) (ts : List String) (writeOk : Bool)
    (hfind : getJobParaHoy hoy s = .ok (some jobHoy))
    (hthread : jobHoy.thread = some (t :: ts))
    (hfail : removeJobFromAgenda jobHoy s writeOk = .error ()) :
    publicarHilo hoy s true writeOk = ⟨1, s, some (t :: ts)⟩ := by
  simp [publicarHilo, hfind, hthread, hfail]

/-- Witness for the amended C1 at a concrete input. -/
theorem C1_witness :
    publicarHilo "2024-01-01" (Storage.content (some ⟨some [jobA], []⟩)) true false =
      ⟨1, Storage.content (some ⟨some [jobA], []⟩), some ["x"]⟩ :=
  C1_cleanup_failure_exits_nonzero "2024-01-01"
    (Storage.content (some ⟨some [jobA], []⟩)) jobA "x" [] false rfl rfl rfl

/-- Claim C2 counterexample: `jobA` and `jobA2` are two distinct stored
jobs sharing the `(date, concept)` pair `("2024-01-01", "A")`.  A single
successful run publishes the first and removes BOTH from the agenda (the
final `jobs` sequence is empty), so the one mutation removes two jobs,
not at most one. -/
theorem C2_counterexample :
    publicarHilo "2024-01-01" (Storage.content (some ⟨some [jobA, jobA2], []⟩)) true true =
      ⟨0, Storage.content (some ⟨some [], []⟩), some ["x"]⟩ ∧ jobA ≠ jobA2 :=
  ⟨rfl, by decide⟩

/-- Claim C2 (amended): in a fully successful run the agenda is mutated
exactly once, the mutation removing every stored job whose
`(date, concept)` pair equals the published job's pair (exactly one when
that pair is unique in the sequence), and the file is written on that run:
at least one job (the published one) is always removed, so the write
always accompanies a removal. -/
theorem C2_removal_filters_all_matches (hoy : String) (js : List Job) (e : List String)
    (jobHoy : Job) (t : String) (ts : List String)
    (hfind : getJobParaHoy hoy (.content (some ⟨some js, e⟩)) = .ok (some jobHoy))
    (hthread : jobHoy.thread = some (t :: ts)) :
    publicarHilo hoy (.content (some ⟨some js, e⟩)) true true =
      ⟨0, .content (some ⟨some (js.filter (fun job =>
          !(job.date == jobHoy.date && job.concept == jobHoy.concept))), []⟩),
        some (t :: ts)⟩ ∧
    (js.filter (fun job =>
        !(job.date == jobHoy.date && job.concept == jobHoy.concept))).length < js.length := by
  refine ⟨run_success_eq hoy js e jobHoy t ts hfind hthread, ?_⟩
  rw [List.length_filter_lt_length_iff_exists]
  exact ⟨jobHoy, (found_job_mem hoy js e jobHoy hfind).1, by simp⟩

/-- Witness for the amended C2: a two-job agenda where only the first job
matches today's pair; the run removes exactly that one job. -/
theorem C2_witness :
    publicarHilo "2024-01-01" (Storage.content (some ⟨some [jobA, jobC], []⟩)) true true =
      ⟨0, Storage.content (some ⟨some ([jobA, jobC].filter (fun job =>
          !(job.date == jobA.date && job.concept == jobA.concept))), []⟩),
        some ["x"]⟩ ∧
    ([jobA, jobC].filter (fun job =>
        !(job.date == jobA.date && job.concept == jobA.concept))).length <
      ([jobA, jobC] : List Job).length :=
  C2_removal_filters_all_matches "2024-01-01" [jobA, jobC] [] jobA "x" [] rfl rfl

/-- Claim C4: after a fully successful run, the resulting agenda holds a
jobs sequence with no entry matching the published job's
`(date, concept)` pair, which is a sublist of the original sequence (so
all surviving entries keep their original relative order), and every
non-matching original entry survives. -/
theorem C4_success_removes_pair_preserves_order (hoy : String) (js : List Job)
    (e : List String) (jobHoy : Job) (t : String) (ts : List String)
    (hfind : getJobParaHoy hoy (.content (some ⟨some js, e⟩)) = .ok (some jobHoy))
    (hthread : jobHoy.thread = some (t :: ts)) :
    ∃ l, publicarHilo hoy (.content (some ⟨some js, e⟩)) true true =
        ⟨0, .content (some ⟨some l, []⟩), some (t :: ts)⟩ ∧
      (∀ j ∈ l, ¬(j.date = jobHoy.date ∧ j.concept = jobHoy.concept)) ∧
      l.Sublist js ∧
      (∀ j ∈ js, ¬(j.date = jobHoy.date ∧ j.concept = jobHoy.concept) → j ∈ l) := by
  refine ⟨_, run_success_eq hoy js e jobHoy t ts hfind hthread, ?_,
    List.filter_sublist js, ?_⟩
  · intro j hj
    exact (removal_pred_iff j jobHoy).mp (List.mem_filter.mp hj).2
  · intro j hj hne
    exact List.mem_filter.mpr ⟨hj, (removal_pred_iff j jobHoy).mpr hne⟩

/-- Witness for C4: the spec scenario — agenda
`[{2024-01-01, A, [x]}, {2024-01-02, B, [y, z]}]` run on `2024-01-02`
publishes `["y", "z"]` and leaves only the `2024-01-01` job. -/
theorem C4_witness :
    ∃ l, publicarHilo "2024-01-02" (Storage.content (some ⟨some [jobA, jobB], []⟩)) true true =
        ⟨0, Storage.content (some ⟨some l, []⟩), some ["y", "z"]⟩ ∧
      (∀ j ∈ l, ¬(j.date = jobB.date ∧ j.concept = jobB.concept)) ∧
      l.Sublist [jobA, jobB] ∧
      (∀ j ∈ [jobA, jobB], ¬(j.date = jobB.date ∧ j.concept = jobB.concept) → j ∈ l) :=
  C4_success_removes_pair_preserves_order "2024-01-02" [jobA, jobB] [] jobB "y" ["z"] rfl rfl

/-- Helper: `List.find?` over the date predicate is invariant under
permutation when at most one stored job is dated `hoy` and a match
exists. -/
theorem find_date_perm (hoy : String) (js1 js2 : List Job)
    (hperm : js1.Perm js2)
    (huniq : ∀ a ∈ js1, ∀ b ∈ js1, a.date = hoy → b.date = hoy → a = b)
    (hex : ∃ j ∈ js1, j.date = hoy) :
    js1.find? (fun job => job.date == hoy) = js2.find? (fun job => job.date == hoy) := by
  obtain ⟨j, hj, hjd⟩ := hex
  cases h1 : js1.find? (fun job => job.date == hoy) with
  | none =>
    have := List.find?_eq_none.mp h1 j hj
    simp [hjd] at this
  | some a =>
    cases h2 : js2.find? (fun job => job.date == hoy) with
    | none =>
      have := List.find?_eq_none.mp h2 j (hperm.mem_iff.mp hj)
      simp [hjd] at this
    | some b =>
      have ha : a ∈ js1 := List.mem_of_find?_eq_some h1
      have hb : b ∈ js1 := hperm.mem_iff.mpr (List.mem_of_find?_eq_some h2)
      have had : a.date = hoy := by simpa using List.find?_some h1
      have hbd : b.date = hoy := by simpa using List.find?_some h2
      rw [huniq a ha b hb had hbd]

/-- Claim C7 counterexample: `jobA` and `jobC` are distinct jobs sharing
the date `2024-01-01`.  The two orderings of the same two-job agenda are
permutations of each other and both contain a job dated today, yet the
lookup returns different jobs (`find` returns the first match), so
insertion order is not irrelevant to lookup. -/
theorem C7_counterexample :
    List.Perm [jobA, jobC] [jobC, jobA] ∧
    (∃ j ∈ [jobA, jobC], j.date = "2024-01-01") ∧
    getJobParaHoy "2024-01-01" (Storage.content (some ⟨some [jobA, jobC], []⟩)) ≠
      getJobParaHoy "2024-01-01" (Storage.content (some ⟨some [jobC, jobA], []⟩)) := by
  refine ⟨List.Perm.swap jobC jobA [], ⟨jobA, by simp, rfl⟩, ?_⟩
  intro h
  rw [show getJobParaHoy "2024-01-01"
        (Storage.content (some ⟨some [jobA, jobC], []⟩)) =
        Except.ok (some jobA) from rfl,
      show getJobParaHoy "2024-01-01"
        (Storage.content (some ⟨some [jobC, jobA], []⟩)) =
        Except.ok (some jobC) from rfl] at h
  have hcon : jobA.concept = jobC.concept :=
    congrArg Job.concept (Option.some.inj (Except.ok.inj h))
  exact absurd hcon (by decide)

/-- Claim C7 (amended): the lookup is invariant under permutation of the
stored jobs sequence provided at most one stored job is dated today; in
general `find` returns the first job dated today, which depends on the
order when several jobs share today's date. -/
theorem C7_lookup_perm_invariant_of_unique (hoy : String) (js1 js2 : List Job)
    (e1 e2 : List String)
    (hperm : js1.Perm js2)
    (huniq : ∀ a ∈ js1, ∀ b ∈ js1, a.date = hoy → b.date = hoy → a = b)
    (hex : ∃ j ∈ js1, j.date = hoy) :
    getJobParaHoy hoy (.content (some ⟨some js1, e1⟩)) =
      getJobParaHoy hoy (.content (some ⟨some js2, e2⟩)) := by
  obtain ⟨j, hj, hjd⟩ := hex
  have hne1 : js1 ≠ [] := by
    intro hnil
    rw [hnil] at hj
    exact absurd hj (List.not_mem_nil j)
  have hne2 : js2 ≠ [] := by
    intro hnil
    exact absurd (hperm.mem_iff.mp hj) (by rw [hnil]; exact List.not_mem_nil j)
  have hl1 : (js1.length == 0) = false := by
    simpa using fun hz => hne1 (List.length_eq_zero.mp hz)
  have hl2 : (js2.length == 0) = false := by
    simpa using fun hz => hne2 (List.length_eq_zero.mp hz)
  simp only [getJobParaHoy, hl1, hl2, Bool.false_eq_true, if_false]
  exact congrArg Except.ok (find_date_perm hoy js1 js2 hperm huniq ⟨j, hj, hjd⟩)

/-- Witness for the amended C7: only `jobA` is dated `2024-01-01`, so both
orderings of the two-job agenda yield the same lookup result. -/
theorem C7_witness :
    getJobParaHoy "2024-01-01" (Storage.content (some ⟨some [jobB, jobA], []⟩)) =
      getJobParaHoy "2024-01-01" (Storage.content (some ⟨some [jobA, jobB], []⟩)) :=
  C7_lookup_perm_invariant_of_unique "2024-01-01" [jobB, jobA] [jobA, jobB] [] []
    (List.Perm.swap jobA jobB []) (by decide) ⟨jobA, by simp, rfl⟩

/-- Claim C9: removing a job whose `(date, concept)` pair does not occur in
the stored jobs sequence does not raise and leaves the jobs sequence
unchanged (the filter keeps every entry); only the write-back of the
`jobs`-only mapping happens. -/
theorem C9_remove_absent_pair_noop (jobPub : Job) (js : List Job) (e : List String)
    (habsent : ∀ j ∈ js, ¬(j.date = jobPub.date ∧ j.concept = jobPub.concept)) :
    removeJobFromAgenda jobPub (.content (some ⟨some js, e⟩)) true =
      .ok (.content (some ⟨some js, []⟩)) := by
  have hfilter : js.filter (fun job =>
      !(job.date == jobPub.date && job.concept == jobPub.concept)) = js := by
    apply List.filter_eq_self.mpr
    intro a ha
    exact (removal_pred_iff a jobPub).mpr (habsent a ha)
  rw [show removeJobFromAgenda jobPub (.content (some ⟨some js, e⟩)) true =
      .ok (.content (some ⟨some (js.filter (fun job =>
        !(job.date == jobPub.date && job.concept == jobPub.concept))), []⟩)) from rfl,
    hfilter]

/-- Witness for C9: removing `jobB` (pair `("2024-01-02", "B")`) from an
agenda holding only `jobA` keeps `jobA` and does not raise. -/
theorem C9_witness :
    removeJobFromAgenda jobB (Storage.content (some ⟨some [jobA], ["meta"]⟩)) true =
      Except.ok (Storage.content (some ⟨some [jobA], []⟩)) :=
  C9_remove_absent_pair_noop jobB [jobA] ["meta"] (by decide)

/-- Claim C10: a successful `removeJobFromAgenda` rewrites the file as the
mapping `{ jobs: jobsPendientes }`: whatever other top-level keys `e` the
pre-run file had, the post-run file's `others` component is `[]`, so every
such key is absent afterwards. -/
theorem C10_rewrite_drops_other_keys (jobPub : Job) (js : List Job) (e : List String) :
    removeJobFromAgenda jobPub (.content (some ⟨some js, e⟩)) true =
      .ok (.content (some ⟨some (js.filter (fun job =>
        !(job.date == jobPub.date && job.concept == jobPub.concept))), []⟩)) := rfl

end PostTweet
